import Mathlib

/-!
Shallow embedding of the aggregation and formatting core of the Talent Pulse
dashboard (src/app.py and src/revenue.py), with theorems settling the frozen
claims about it.

Modelling conventions: Python floats are modelled as exact rationals, Python
ints as integers, dict keys that may be absent as Option fields, and Python
exceptions as Except values.  The Python stdlib random module is external to
the repository and is modelled as an abstract deterministic pseudo-random
generator (a Nat state, a seeding function, one state step per draw); the
determinism theorems below do not depend on the concrete transition function.
-/

namespace TalentPulse

/-- Round half to even (banker's rounding) on an exact rational, the rounding
used by Python's float-to-string formatting and by the builtin round. -/
def rhe (q : ℚ) : ℤ :=
  let f := ⌊q⌋
  let r := q - (f : ℚ)
  if r < 1 / 2 then f
  else if 1 / 2 < r then f + 1
  else if f % 2 = 0 then f else f + 1

/-- Insert a comma after every three characters while more remain; applied to a
reversed digit list this produces Python's thousands grouping. -/
def commaRev : List Char → List Char
  | a :: b :: c :: d :: rest => a :: b :: c :: ',' :: commaRev (d :: rest)
  | l => l

/-- Thousands-grouped decimal digits of a natural number, as Python's format
specifier ",.0f" renders the integral part. -/
def groupedNat (n : ℕ) : String :=
  String.mk (commaRev (toString n).toList.reverse).reverse

/-- Model of the Python format specifier ".2f": round half to even at two
decimal places and print with exactly two fractional digits. -/
def fmt2 (q : ℚ) : String :=
  let n := rhe (q * 100)
  let m := n.natAbs
  (if n < 0 then "-" else "")
    ++ toString (m / 100) ++ "."
    ++ (if m % 100 < 10 then "0" else "") ++ toString (m % 100)

/-- Model of the Python format specifier ",.0f": round half to even to a whole
number and print it with thousands separators. -/
def fmt0grouped (q : ℚ) : String :=
  let n := rhe q
  (if n < 0 then "-" else "") ++ groupedNat n.natAbs

/-- Transcription of inr_format from src/app.py lines 39-51 and src/revenue.py
lines 82-91 on a numeric argument (on numbers the two variants coincide: the
truthiness test `not x or x == 0` of app.py and the `pd.isna(x) or x == 0`
test of revenue.py both collapse to x = 0). -/
def inr_format (x : ℚ) : String :=
  if x = 0 then "₹0"
  else if 10000000 ≤ |x| then "₹" ++ fmt2 (x / 10000000) ++ " Cr"
  else if 100000 ≤ |x| then "₹" ++ fmt2 (x / 100000) ++ " L"
  else "₹" ++ fmt0grouped x

/-- Transcription of the format_currency ladder exactly as the spec words it in
section 4.3, kept separate from the source transcription so the two can be
compared. -/
def format_currency_spec (x : ℚ) : String :=
  if x = 0 then "₹0"
  else if |x| ≥ 10000000 then "₹" ++ fmt2 (x / 10000000) ++ " Cr"
  else if |x| ≥ 100000 then "₹" ++ fmt2 (x / 100000) ++ " L"
  else "₹" ++ fmt0grouped x

/-- Python value in the argument positions inr_format is exercised with: a
number, None, a float NaN, or a string. -/
inductive PyVal where
  | num (q : ℚ)
  | none
  | nan
  | str (s : String)
deriving DecidableEq

/-- Transcription of inr_format from src/app.py lines 39-51 over arbitrary
Python inputs.  The whole body sits in a try/except returning the zero
sentinel: None is falsy and hits the `not x` test; the empty string is falsy
too and every other string makes abs raise a TypeError that the bare except
turns into the sentinel; NaN is truthy, compares unequal to 0, fails both
magnitude tests, and reaches the ",.0f" branch, which prints nan. -/
def inr_format_any : PyVal → String
  | .num q => inr_format q
  | .none => "₹0"
  | .str _ => "₹0"
  | .nan => "₹nan"

/-- Transcription of inr_format from src/revenue.py lines 82-91 over arbitrary
Python inputs.  This variant has no try/except: pd.isna catches None and NaN,
numbers follow the ladder, but abs of a string raises an uncaught TypeError,
modelled as an Except error. -/
def inr_format_unguarded : PyVal → Except String String
  | .num q => .ok (inr_format q)
  | .none => .ok "₹0"
  | .nan => .ok "₹0"
  | .str _ => .error "TypeError"

/-- Transcription of percentage_change from src/app.py lines 53-60 and
src/revenue.py lines 93-97 (identical bodies; the try/except of the app.py
copy can never fire on numeric input). -/
def percentage_change (current previous : ℚ) : ℚ :=
  if previous = 0 then (if 0 < current then 100 else 0)
  else (current - previous) / previous * 100

/-- Usage tier of the classify_usage classifier. -/
inductive Usage where
  | Heavy
  | Medium
  | Low
  | Dormant
deriving DecidableEq

/-- Transcription of classify_usage from src/revenue.py lines 444-452. -/
def classify_usage (days : ℤ) : Usage :=
  if days ≥ 20 then .Heavy
  else if days ≥ 10 then .Medium
  else if days ≥ 1 then .Low
  else .Dormant

/-- One generated record, a Python dict from src/app.py lines 22-32.  Fields a
dict might lack are Option, with none standing for an absent key.  The
displayRevenue field models the extra key Revenue (INR) that the dashboard
handler of src/app.py lines 98-99 writes into the top customer dicts; the
generator never sets it. -/
structure Record where
  canonical_id : Option String
  canonical_name : Option String
  sector : Option String
  sku : Option String
  revenue_inr : Option ℚ
  daysActive : Option ℤ
  downloads : Option ℤ
  searches : Option ℤ
  region : Option String
  displayRevenue : Option String
deriving DecidableEq

/-- Python item.get('revenue_inr', 0), as in src/app.py lines 75, 78 and 159. -/
def revOf (r : Record) : ℚ := r.revenue_inr.getD 0

/-- Python item.get('canonical_id', ''), as in src/app.py lines 79 and 160. -/
def idOf (r : Record) : String := r.canonical_id.getD ""

/-- Python item.get('sku', 'Unknown'), as in src/app.py line 91. -/
def skuOf (r : Record) : String := r.sku.getD "Unknown"

/-- Total revenue of src/app.py line 159: sum of item.get('revenue_inr', 0). -/
def total_revenue (records : List Record) : ℚ := (records.map revOf).sum

/-- Unique customer count of src/app.py line 160:
len(set(item.get('canonical_id', ''))). -/
def unique_customers (records : List Record) : ℕ :=
  (records.map idOf).toFinset.card

/-- Average revenue per customer of src/app.py line 161:
total_revenue / total_customers if total_customers > 0 else 0. -/
def avg_revenue_per_customer (records : List Record) : ℚ :=
  if 0 < unique_customers records then
    total_revenue records / (unique_customers records : ℚ)
  else 0

/-- One execution of the Python dict update revenue_by_sku[sku] += value from
src/app.py lines 92-94, with a fresh key appended at the end as dict insertion
does. -/
def addEntry : List (String × ℚ) → String → ℚ → List (String × ℚ)
  | [], k, v => [(k, v)]
  | (k', v') :: t, k, v =>
    if k' = k then (k', v' + v) :: t else (k', v') :: addEntry t k v

/-- Transcription of the revenue_by_sku accumulation loop of src/app.py lines
89-94; the association list in insertion order models the Python dict. -/
def group_sum (records : List Record) : List (String × ℚ) :=
  records.foldl (fun acc r => addEntry acc (skuOf r) (revOf r)) []

/-- First-encounter deduplication: the key order of a Python dict built by
inserting the listed keys in order. -/
def firstKeys (ks : List String) : List String :=
  ks.foldl (fun acc k => if k ∈ acc then acc else acc ++ [k]) []

/-- Sum of the values of the records carrying a given group key. -/
def sumFor (records : List Record) (k : String) : ℚ :=
  ((records.filter fun r => decide (skuOf r = k)).map revOf).sum

/-- Canonical reading of the grouping loop, stated for comparison with
group_sum: the keys in first-encounter order, each paired with the sum of the
values of its records. -/
def groupCanon (records : List Record) : List (String × ℚ) :=
  (firstKeys (records.map skuOf)).map fun k => (k, sumFor records k)

/-- Python's sorted(records, key=rank, reverse=True): a stable descending sort,
modelled by mergeSort with the may-come-first relation rank b ≤ rank a. -/
def sortByDesc (rank : Record → ℚ) (records : List Record) : List Record :=
  records.mergeSort fun a b => decide (rank b ≤ rank a)

/-- top_n of the spec, realized in src/app.py line 97 as
sorted(current_data, key=lambda x: x.get('revenue_inr', 0), reverse=True)[:10],
generalized over the rank key and the cut n. -/
def top_n (rank : Record → ℚ) (records : List Record) (n : ℕ) : List Record :=
  (sortByDesc rank records).take n

/-- The record with the Revenue (INR) display key written into it, as the loop
body of src/app.py line 99 does to a shared dict. -/
def withDisplay (r : Record) : Record :=
  { r with displayRevenue := some (inr_format (revOf r)) }

/-- The record with the Revenue (INR) display key removed; used to compare
datasets up to that key. -/
def clearDisplay (r : Record) : Record :=
  { r with displayRevenue := none }

/-- State of the process-wide dataset after one run of the dashboard handler of
src/app.py lines 72-99.  Python's sorted copies the list but shares the record
objects, so the loop at lines 98-99 writes the Revenue (INR) key into the
top-ten records of raw_data itself; list positions model object identity. -/
def dashboardEffect (records : List Record) : List Record :=
  let current := records.enum.filter fun p => decide (0 < revOf p.2)
  let sortedCur := current.mergeSort fun a b => decide (revOf b.2 ≤ revOf a.2)
  let topIdx := (sortedCur.take 10).map Prod.fst
  records.enum.map fun p => if p.1 ∈ topIdx then withDisplay p.2 else p.2

/-- Abstract deterministic pseudo-random generator standing in for the external
Python random module: one linear-congruential state step per draw.  Nothing
proved below depends on this transition function, only on its determinism. -/
def rngNext (s : ℕ) : ℕ := (s * 1103515245 + 12345) % 2147483648

/-- Model of random.seed: the seed determines the generator state. -/
def rngSeed (n : ℕ) : ℕ := rngNext n

/-- Model of random.uniform(a, b): one draw mapped affinely into [a, b]. -/
def drawUniform (a b : ℚ) (s : ℕ) : ℚ × ℕ :=
  let s' := rngNext s
  (a + (((s' % 1000000 : ℕ) : ℚ) / 1000000) * (b - a), s')

/-- Model of random.randint(a, b): one draw reduced into [a, b]. -/
def drawInt (a b : ℤ) (s : ℕ) : ℤ × ℕ :=
  let s' := rngNext s
  (a + (s' : ℤ) % (b - a + 1), s')

/-- Model of random.choice over a nonempty list of strings. -/
def drawChoice (l : List String) (s : ℕ) : String × ℕ :=
  let s' := rngNext s
  (l.getD (s' % l.length) "", s')

/-- Python round(x, 2): half-to-even rounding at two decimal places. -/
def roundTo2 (q : ℚ) : ℚ := (rhe (q * 100) : ℚ) / 100

/-- Zero-padded four-digit rendering of the loop index, Python f-string 04d. -/
def pad4 (n : ℕ) : String :=
  let s := toString n
  String.mk (List.replicate (4 - s.length) '0') ++ s

/-- Sector enumeration of src/app.py line 16. -/
def sectors : List String :=
  ["Technology", "Healthcare", "Finance", "Manufacturing", "Retail",
   "Education", "Government", "Consulting"]

/-- SKU enumeration of src/app.py line 17. -/
def skus : List String :=
  ["TP Starter", "TP Professional", "TP Enterprise", "TP Premium"]

/-- Region enumeration of src/app.py line 31. -/
def regions : List String := ["North", "South", "East", "West", "Central"]

/-- One iteration of the generation loop of src/app.py lines 20-32: the revenue
uniform draw happens first (line 21), then the draws of the dict literal in
source order. -/
def genRecord (i : ℕ) (s : ℕ) : Record × ℕ :=
  let u := drawUniform 100000 5000000 s
  let revenue := roundTo2 u.1
  let sec := drawChoice sectors u.2
  let sk := drawChoice skus sec.2
  let da := drawInt 0 30 sk.2
  let dl := drawInt 0 500 da.2
  let se := drawInt 0 800 dl.2
  let rg := drawChoice regions se.2
  ({ canonical_id := some ("CUST_" ++ pad4 i),
     canonical_name := some ("Company_" ++ toString i),
     sector := some sec.1,
     sku := some sk.1,
     revenue_inr := some revenue,
     daysActive := some da.1,
     downloads := some dl.1,
     searches := some se.1,
     region := some rg.1,
     displayRevenue := none }, rg.2)

/-- The generation loop: n records starting at index i, threading the RNG
state. -/
def genRecords : ℕ → ℕ → ℕ → List Record × ℕ
  | _, 0, s => ([], s)
  | i, n + 1, s =>
    let rs := genRecord i s
    let rest := genRecords (i + 1) n rs.2
    (rs.1 :: rest.1, rest.2)

/-- load_data from src/app.py lines 11-34 as a state transformer on the global
RNG state: the call random.seed(42) at entry discards the incoming state, and
50 records are generated. -/
def load_data (_s : ℕ) : List Record × ℕ :=
  genRecords 0 50 (rngSeed 42)

/-- A concrete fully-populated record used by the witnesses. -/
def sampleRecord : Record :=
  { canonical_id := some "CUST_0001",
    canonical_name := some "Company_1",
    sector := some "Technology",
    sku := some "TP Starter",
    revenue_inr := some 500000,
    daysActive := some 5,
    downloads := some 10,
    searches := some 20,
    region := some "North",
    displayRevenue := none }

/-- A concrete record whose canonical_id key is absent, used by witnesses and
counterexamples. -/
def noIdRecord : Record :=
  { canonical_id := none,
    canonical_name := some "Company_2",
    sector := some "Finance",
    sku := some "TP Premium",
    revenue_inr := some 5,
    daysActive := some 0,
    downloads := some 0,
    searches := some 0,
    region := some "South",
    displayRevenue := none }

/-- C1: growth_percent(current, previous) equals ((current - previous) /
previous) * 100 when previous is nonzero; when previous = 0 it returns 100 if
current > 0 and 0 otherwise; in particular growth_percent(0,0) = 0,
growth_percent(100,0) = 100, growth_percent(150,100) = 50 and
growth_percent(50,100) = -50. -/
theorem growth_percent_correct :
    (∀ current previous : ℚ, previous ≠ 0 →
      percentage_change current previous = (current - previous) / previous * 100) ∧
    (∀ current : ℚ, 0 < current → percentage_change current 0 = 100) ∧
    (∀ current : ℚ, current ≤ 0 → percentage_change current 0 = 0) ∧
    percentage_change 0 0 = 0 ∧ percentage_change 100 0 = 100 ∧
    percentage_change 150 100 = 50 ∧ percentage_change 50 100 = -50 := by
  refine ⟨fun c p hp => ?_, fun c hc => ?_, fun c hc => ?_, ?_, ?_, ?_, ?_⟩
  · rw [percentage_change, if_neg hp]
  · rw [percentage_change, if_pos rfl, if_pos hc]
  · rw [percentage_change, if_pos rfl, if_neg (not_lt.mpr hc)]
  · norm_num [percentage_change]
  · norm_num [percentage_change]
  · norm_num [percentage_change]
  · norm_num [percentage_change]

/-- Closed instantiation of growth_percent_correct, discharging each of its
hypotheses at a concrete input. -/
theorem growth_percent_correct_witness :
    (2 : ℚ) ≠ 0 ∧ percentage_change 3 2 = (3 - 2) / 2 * 100 ∧
    (0 : ℚ) < 1 ∧ percentage_change 1 0 = 100 ∧
    (-1 : ℚ) ≤ 0 ∧ percentage_change (-1) 0 = 0 :=
  ⟨by norm_num, growth_percent_correct.1 3 2 (by norm_num), by norm_num,
   growth_percent_correct.2.1 1 (by norm_num), by norm_num,
   growth_percent_correct.2.2.1 (-1) (by norm_num)⟩

/-- C5: on every nonnegative integer, classify_usage returns Heavy exactly on
days_active ≥ 20, Medium exactly on 10-19, Low exactly on 1-9, Dormant exactly
on 0; concretely 0 → Dormant, 1 and 9 → Low, 10 and 19 → Medium, 20 and
1000 → Heavy. -/
theorem classify_usage_bands :
    (∀ d : ℤ, 0 ≤ d →
      ((classify_usage d = Usage.Heavy ↔ 20 ≤ d) ∧
       (classify_usage d = Usage.Medium ↔ 10 ≤ d ∧ d ≤ 19) ∧
       (classify_usage d = Usage.Low ↔ 1 ≤ d ∧ d ≤ 9) ∧
       (classify_usage d = Usage.Dormant ↔ d = 0))) ∧
    classify_usage 0 = Usage.Dormant ∧ classify_usage 1 = Usage.Low ∧
    classify_usage 9 = Usage.Low ∧ classify_usage 10 = Usage.Medium ∧
    classify_usage 19 = Usage.Medium ∧ classify_usage 20 = Usage.Heavy ∧
    classify_usage 1000 = Usage.Heavy := by
  refine ⟨fun d hd => ?_, by decide, by decide, by decide, by decide,
    by decide, by decide, by decide⟩
  unfold classify_usage
  split_ifs with h1 h2 h3 <;>
    refine ⟨?_, ?_, ?_, ?_⟩ <;> (try simp_all) <;> omega

/-- Closed instantiation of classify_usage_bands at days_active = 5. -/
theorem classify_usage_bands_witness :
    (0 : ℤ) ≤ 5 ∧ (classify_usage 5 = Usage.Low ↔ 1 ≤ (5 : ℤ) ∧ (5 : ℤ) ≤ 9) :=
  ⟨by norm_num, (classify_usage_bands.1 5 (by norm_num)).2.2.1⟩

/-- C4 counterexample: the revenue.py copy of format_currency is not total on
non-numeric input.  Its body has no try/except, so on a string argument abs
raises an uncaught TypeError instead of returning the zero sentinel string the
claim requires for every input. -/
theorem inr_format_unguarded_raises :
    inr_format_unguarded (PyVal.str "abc") = Except.error "TypeError" := rfl

/-- C4 amended: the app.py copy of format_currency never raises and returns
the same zero sentinel as x = 0 for missing (None) and for every string input,
while the revenue.py copy is total on numeric and missing (None/NaN) inputs
and returns the sentinel for the missing ones; only its non-numeric (string)
inputs raise. -/
theorem format_currency_total_amended :
    (∀ q : ℚ, inr_format_any (PyVal.num q) = inr_format q) ∧
    inr_format_any PyVal.none = inr_format 0 ∧
    (∀ s : String, inr_format_any (PyVal.str s) = inr_format 0) ∧
    inr_format_unguarded PyVal.none = Except.ok (inr_format 0) ∧
    inr_format_unguarded PyVal.nan = Except.ok (inr_format 0) ∧
    (∀ q : ℚ, inr_format_unguarded (PyVal.num q) = Except.ok (inr_format q)) := by
  have h0 : inr_format 0 = "₹0" := by rw [inr_format, if_pos rfl]
  exact ⟨fun _ => rfl, by rw [h0]; rfl, fun _ => by rw [h0]; rfl,
    by rw [h0]; rfl, by rw [h0]; rfl, fun _ => rfl⟩

/-- The generation loop produces exactly the requested number of records. -/
theorem genRecords_length : ∀ (n i s : ℕ), (genRecords i n s).1.length = n := by
  intro n
  induction n with
  | zero => intro i s; rfl
  | succ n ih => intro i s; simp [genRecords, ih]

/-- C9: load_data is deterministic.  Because it reseeds the generator with the
fixed seed 42 on entry, two invocations started from any two prior RNG states
produce identical record sequences (hence element-for-element identical
records), and the sequence always has the fixed length 50. -/
theorem load_data_deterministic :
    (∀ s₁ s₂ : ℕ, (load_data s₁).1 = (load_data s₂).1) ∧
    (∀ s : ℕ, (load_data s).1.length = 50) :=
  ⟨fun _ _ => rfl, fun _ => genRecords_length 50 0 (rngSeed 42)⟩

/-- C2: avg_revenue_per_customer returns total revenue divided by the number
of distinct customer ids when that count is nonzero and 0 when it is zero;
the count is zero exactly on the empty record set, which yields 0.  Division
in the embedding is total, so the guarded 0 branch is the formal reading of
returning 0 rather than raising a division-by-zero error. -/
theorem avg_revenue_guard :
    (∀ records : List Record, unique_customers records ≠ 0 →
      avg_revenue_per_customer records
        = total_revenue records / (unique_customers records : ℚ)) ∧
    (∀ records : List Record, unique_customers records = 0 →
      avg_revenue_per_customer records = 0) ∧
    (∀ records : List Record, unique_customers records = 0 ↔ records = []) ∧
    avg_revenue_per_customer [] = 0 := by
  refine ⟨fun records h => ?_, fun records h => ?_, fun records => ?_, rfl⟩
  · rw [avg_revenue_per_customer, if_pos (Nat.pos_of_ne_zero h)]
  · rw [avg_revenue_per_customer, if_neg (by omega)]
  · simp [unique_customers, Finset.card_eq_zero, List.toFinset_eq_empty_iff,
      List.map_eq_nil_iff]

/-- Closed instantiation of avg_revenue_guard at a one-record set. -/
theorem avg_revenue_guard_witness :
    unique_customers [sampleRecord] ≠ 0 ∧
    avg_revenue_per_customer [sampleRecord]
      = total_revenue [sampleRecord] / (unique_customers [sampleRecord] : ℚ) :=
  ⟨by decide, avg_revenue_guard.1 [sampleRecord] (by decide)⟩

/-- C10: a record whose canonical_id key is absent is counted as the single
customer with the empty-string id: every non-empty record set all of whose
records lack canonical_id has exactly one unique customer, and appending any
number of id-less records never decreases the unique-customer count and
raises it by at most one. -/
theorem missing_id_single_customer :
    (∀ records : List Record, records ≠ [] →
      (∀ r ∈ records, r.canonical_id = none) → unique_customers records = 1) ∧
    (∀ records extra : List Record, (∀ r ∈ extra, r.canonical_id = none) →
      unique_customers records ≤ unique_customers (records ++ extra) ∧
      unique_customers (records ++ extra) ≤ unique_customers records + 1) := by
  constructor
  · intro records hne hall
    have hmap : records.map idOf = List.replicate (records.map idOf).length "" := by
      refine List.eq_replicate_of_mem fun b hb => ?_
      obtain ⟨r, hr, rfl⟩ := List.mem_map.mp hb
      simp [idOf, hall r hr]
    have hlen : (records.map idOf).length ≠ 0 := by
      simpa [List.length_eq_zero] using hne
    rw [unique_customers, hmap, List.toFinset_replicate_of_ne_zero hlen]
    exact Finset.card_singleton _
  · intro records extra hall
    have hsub : (extra.map idOf).toFinset ⊆ ({""} : Finset String) := by
      intro x hx
      rw [List.mem_toFinset] at hx
      obtain ⟨r, hr, rfl⟩ := List.mem_map.mp hx
      simp [idOf, hall r hr]
    have hcard : (extra.map idOf).toFinset.card ≤ 1 :=
      (Finset.card_le_card hsub).trans_eq (Finset.card_singleton _)
    constructor
    · rw [unique_customers, unique_customers, List.map_append, List.toFinset_append]
      exact Finset.card_le_card Finset.subset_union_left
    · rw [unique_customers, unique_customers, List.map_append, List.toFinset_append]
      exact (Finset.card_union_le _ _).trans (by omega)

/-- Closed instantiation of missing_id_single_customer: one id-less record
counts as one customer, and appending an id-less record to a one-record set
raises the count by at most one. -/
theorem missing_id_single_customer_witness :
    ([noIdRecord] : List Record) ≠ [] ∧
    unique_customers [noIdRecord] = 1 ∧
    unique_customers ([sampleRecord] ++ [noIdRecord])
      ≤ unique_customers [sampleRecord] + 1 :=
  ⟨by simp, missing_id_single_customer.1 [noIdRecord] (by simp)
    (by intro r hr; rw [List.mem_singleton] at hr; rw [hr]; rfl),
   (missing_id_single_customer.2 [sampleRecord] [noIdRecord]
    (by intro r hr; rw [List.mem_singleton] at hr; rw [hr]; rfl)).2⟩

/-- Half-to-even rounding is the identity on integer values. -/
theorem rhe_intCast (n : ℤ) : rhe (n : ℚ) = n := by
  simp only [rhe, Int.floor_intCast, sub_self]
  norm_num

/-- Evaluation of fmt2 when the argument times 100 is the integer n. -/
theorem fmt2_eq (x : ℚ) (n : ℤ) (h : x * 100 = (n : ℚ)) :
    fmt2 x = (if n < 0 then "-" else "")
      ++ toString (n.natAbs / 100) ++ "."
      ++ (if n.natAbs % 100 < 10 then "0" else "") ++ toString (n.natAbs % 100) := by
  simp only [fmt2, h, rhe_intCast]

/-- Evaluation of fmt0grouped when the argument is the integer n. -/
theorem fmt0grouped_eq (x : ℚ) (n : ℤ) (h : x = (n : ℚ)) :
    fmt0grouped x = (if n < 0 then "-" else "") ++ groupedNat n.natAbs := by
  simp only [fmt0grouped, h, rhe_intCast]

/-- The crore branch of inr_format. -/
theorem inr_format_crore (x : ℚ) (h1 : x ≠ 0) (h2 : 10000000 ≤ |x|) :
    inr_format x = "₹" ++ fmt2 (x / 10000000) ++ " Cr" := by
  rw [inr_format, if_neg h1, if_pos h2]

/-- The lakh branch of inr_format. -/
theorem inr_format_lakh (x : ℚ) (h1 : x ≠ 0) (h2 : ¬ 10000000 ≤ |x|)
    (h3 : 100000 ≤ |x|) :
    inr_format x = "₹" ++ fmt2 (x / 100000) ++ " L" := by
  rw [inr_format, if_neg h1, if_neg h2, if_pos h3]

/-- The grouped-integer branch of inr_format. -/
theorem inr_format_small (x : ℚ) (h1 : x ≠ 0) (h2 : ¬ 10000000 ≤ |x|)
    (h3 : ¬ 100000 ≤ |x|) :
    inr_format x = "₹" ++ fmt0grouped x := by
  rw [inr_format, if_neg h1, if_neg h2, if_neg h3]

/-- C3: inr_format agrees everywhere with the spec's format_currency ladder
(zero sentinel at 0, two-decimal crore band above 10,000,000 inclusive,
two-decimal lakh band above 100,000 inclusive, thousands-grouped integers
below), and evaluates the spec's examples and both inclusive band boundaries
to the expected strings. -/
theorem format_currency_ladder :
    (∀ x : ℚ, inr_format x = format_currency_spec x) ∧
    inr_format 0 = "₹0" ∧
    inr_format 150000 = "₹1.50 L" ∧
    inr_format 25000000 = "₹2.50 Cr" ∧
    inr_format 5000 = "₹5,000" ∧
    inr_format 100000 = "₹1.00 L" ∧
    inr_format 10000000 = "₹1.00 Cr" ∧
    inr_format 99999 = "₹99,999" := by
  refine ⟨fun x => rfl, by rw [inr_format, if_pos rfl], ?_, ?_, ?_, ?_, ?_, ?_⟩
  · have ha : |(150000 : ℚ)| = 150000 := abs_of_pos (by norm_num)
    rw [inr_format_lakh 150000 (by norm_num) (by rw [ha]; norm_num)
      (by rw [ha]; norm_num)]
    rw [fmt2_eq ((150000 : ℚ) / 100000) 150 (by norm_num)]
    rfl
  · have ha : |(25000000 : ℚ)| = 25000000 := abs_of_pos (by norm_num)
    rw [inr_format_crore 25000000 (by norm_num) (by rw [ha]; norm_num)]
    rw [fmt2_eq ((25000000 : ℚ) / 10000000) 250 (by norm_num)]
    rfl
  · have ha : |(5000 : ℚ)| = 5000 := abs_of_pos (by norm_num)
    rw [inr_format_small 5000 (by norm_num) (by rw [ha]; norm_num)
      (by rw [ha]; norm_num)]
    rw [fmt0grouped_eq 5000 5000 (by norm_num)]
    rfl
  · have ha : |(100000 : ℚ)| = 100000 := abs_of_pos (by norm_num)
    rw [inr_format_lakh 100000 (by norm_num) (by rw [ha]; norm_num)
      (by rw [ha])]
    rw [fmt2_eq ((100000 : ℚ) / 100000) 100 (by norm_num)]
    rfl
  · have ha : |(10000000 : ℚ)| = 10000000 := abs_of_pos (by norm_num)
    rw [inr_format_crore 10000000 (by norm_num) (by rw [ha])]
    rw [fmt2_eq ((10000000 : ℚ) / 10000000) 100 (by norm_num)]
    rfl
  · have ha : |(99999 : ℚ)| = 99999 := abs_of_pos (by norm_num)
    rw [inr_format_small 99999 (by norm_num) (by rw [ha]; norm_num)
      (by rw [ha]; norm_num)]
    rw [fmt0grouped_eq 99999 99999 (by norm_num)]
    rfl

/-- The may-come-first relation of the descending sort is transitive. -/
theorem sortByDescRel_trans (rank : Record → ℚ) :
    ∀ a b c : Record, decide (rank b ≤ rank a) = true →
      decide (rank c ≤ rank b) = true → decide (rank c ≤ rank a) = true := by
  intro a b c hab hbc
  rw [decide_eq_true_eq] at *
  exact hbc.trans hab

/-- The may-come-first relation of the descending sort is total. -/
theorem sortByDescRel_total (rank : Record → ℚ) :
    ∀ a b : Record, (decide (rank b ≤ rank a) || decide (rank a ≤ rank b)) = true := by
  intro a b
  simpa using le_total (rank b) (rank a)

/-- Stability of the descending sort: for every rank value, the records with
that rank appear in the sorted output exactly in their original order. -/
theorem sortByDesc_filter_eq (rank : Record → ℚ) (records : List Record) (v : ℚ) :
    (sortByDesc rank records).filter (fun r => decide (rank r = v))
      = records.filter (fun r => decide (rank r = v)) := by
  set p : Record → Bool := fun r => decide (rank r = v) with hp
  have hmemv : ∀ x ∈ records.filter p, rank x = v := by
    intro x hx
    have := List.of_mem_filter hx
    simpa [hp] using this
  have hpw : (records.filter p).Pairwise
      (fun a b => decide (rank b ≤ rank a) = true) := by
    refine List.pairwise_of_forall_mem_list fun a ha b hb => ?_
    rw [decide_eq_true_eq, hmemv a ha, hmemv b hb]
  have hsub : (records.filter p).Sublist (sortByDesc rank records) :=
    List.sublist_mergeSort (sortByDescRel_trans rank) (sortByDescRel_total rank)
      hpw (List.filter_sublist records)
  have hidem : (records.filter p).filter p = records.filter p :=
    List.filter_eq_self.mpr fun a ha => List.of_mem_filter ha
  have hsub2 : (records.filter p).Sublist ((sortByDesc rank records).filter p) := by
    have := hsub.filter p
    rwa [hidem] at this
  have hperm : (sortByDesc rank records).Perm records :=
    List.mergeSort_perm records _
  have hlen : (records.filter p).length = ((sortByDesc rank records).filter p).length := by
    rw [← List.countP_eq_length_filter, ← List.countP_eq_length_filter]
    exact (hperm.countP_eq p).symm
  exact (hsub2.eq_of_length hlen).symm

/-- C8: top_n returns exactly min(n, |R|) records, ordered by the rank key
descending; the underlying sort is a permutation of the input whose equal-rank
fibers are preserved exactly, so ties in the returned sequence keep their
original encounter order (they form a sublist of the input's records of that
rank). -/
theorem top_n_correct :
    ∀ (rank : Record → ℚ) (records : List Record) (n : ℕ),
      (top_n rank records n).length = min n records.length ∧
      (top_n rank records n).Pairwise (fun a b => rank b ≤ rank a) ∧
      (∀ v : ℚ, ((top_n rank records n).filter fun r => decide (rank r = v)).Sublist
        (records.filter fun r => decide (rank r = v))) ∧
      (∀ v : ℚ, ((sortByDesc rank records).filter fun r => decide (rank r = v))
        = records.filter fun r => decide (rank r = v)) ∧
      (sortByDesc rank records).Perm records := by
  intro rank records n
  refine ⟨?_, ?_, ?_, sortByDesc_filter_eq rank records, List.mergeSort_perm records _⟩
  · rw [top_n, List.length_take, sortByDesc, List.length_mergeSort]
  · have hs := List.sorted_mergeSort (sortByDescRel_trans rank)
      (sortByDescRel_total rank) records
    have hsorted : (sortByDesc rank records).Pairwise (fun a b => rank b ≤ rank a) :=
      hs.imp fun h => by simpa using h
    exact List.Pairwise.sublist (List.take_sublist n _) hsorted
  · intro v
    have h1 := (List.take_sublist n (sortByDesc rank records)).filter
      (fun r => decide (rank r = v))
    rw [sortByDesc_filter_eq rank records v] at h1
    exact h1

/-- Membership in the first-encounter fold is membership in the seed or in the
remaining input. -/
theorem mem_firstKeys_foldl : ∀ (l acc : List String) (a : String),
    (a ∈ l.foldl (fun acc k => if k ∈ acc then acc else acc ++ [k]) acc)
      ↔ a ∈ acc ∨ a ∈ l := by
  intro l
  induction l with
  | nil => intro acc a; simp
  | cons k l ih =>
    intro acc a
    rw [List.foldl_cons, ih]
    by_cases hk : k ∈ acc
    · rw [if_pos hk]
      constructor
      · rintro (h | h)
        · exact Or.inl h
        · exact Or.inr (List.mem_cons_of_mem _ h)
      · rintro (h | h)
        · exact Or.inl h
        · rcases List.mem_cons.mp h with rfl | h'
          · exact Or.inl hk
          · exact Or.inr h'
    · rw [if_neg hk]
      constructor
      · rintro (h | h)
        · rcases List.mem_append.mp h with h' | h'
          · exact Or.inl h'
          · rw [List.mem_singleton] at h'
            exact Or.inr (List.mem_cons.mpr (Or.inl h'))
        · exact Or.inr (List.mem_cons_of_mem _ h)
      · rintro (h | h)
        · exact Or.inl (List.mem_append.mpr (Or.inl h))
        · rcases List.mem_cons.mp h with rfl | h'
          · exact Or.inl (List.mem_append.mpr (Or.inr (List.mem_singleton.mpr rfl)))
          · exact Or.inr h'

/-- firstKeys keeps exactly the keys of its input. -/
theorem mem_firstKeys (a : String) (l : List String) :
    a ∈ firstKeys l ↔ a ∈ l := by
  rw [firstKeys, mem_firstKeys_foldl]
  simp

/-- The first-encounter fold preserves freedom from duplicates. -/
theorem nodup_firstKeys_foldl : ∀ (l acc : List String), acc.Nodup →
    (l.foldl (fun acc k => if k ∈ acc then acc else acc ++ [k]) acc).Nodup := by
  intro l
  induction l with
  | nil => intro acc h; exact h
  | cons k l ih =>
    intro acc h
    rw [List.foldl_cons]
    by_cases hk : k ∈ acc
    · rw [if_pos hk]; exact ih acc h
    · rw [if_neg hk]
      exact ih _ (by simp [List.nodup_append, h, hk])

/-- firstKeys has no duplicate keys. -/
theorem firstKeys_nodup (l : List String) : (firstKeys l).Nodup :=
  nodup_firstKeys_foldl l [] List.nodup_nil

/-- firstKeys of one more key: unchanged if seen before, appended if fresh. -/
theorem firstKeys_append (l : List String) (k : String) :
    firstKeys (l ++ [k])
      = if k ∈ firstKeys l then firstKeys l else firstKeys l ++ [k] := by
  rw [firstKeys, firstKeys, List.foldl_append]
  rfl

/-- One more record adds its value to its own key's sum and no other. -/
theorem sumFor_append (P : List Record) (r : Record) (k : String) :
    sumFor (P ++ [r]) k = sumFor P k + if skuOf r = k then revOf r else 0 := by
  by_cases h : skuOf r = k <;>
    simp [sumFor, List.filter_append, List.filter_cons, h]

/-- A key carried by no record sums to zero. -/
theorem sumFor_eq_zero (P : List Record) (k : String) (h : k ∉ P.map skuOf) :
    sumFor P k = 0 := by
  have hnil : P.filter (fun r => decide (skuOf r = k)) = [] := by
    rw [List.filter_eq_nil_iff]
    intro r hr
    simp only [decide_eq_true_eq]
    exact fun hk => h (List.mem_map.mpr ⟨r, hr, hk⟩)
  rw [sumFor, hnil]
  rfl

/-- addEntry with a fresh key appends the new pair at the end. -/
theorem addEntry_of_not_mem (L : List String) (f : String → ℚ) (k : String)
    (v : ℚ) (h : k ∉ L) :
    addEntry (L.map fun k' => (k', f k')) k v
      = (L.map fun k' => (k', f k')) ++ [(k, v)] := by
  induction L with
  | nil => rfl
  | cons a L ih =>
    rw [List.map_cons, addEntry,
      if_neg (fun ha => h (List.mem_cons.mpr (Or.inl ha.symm))),
      ih (fun hm => h (List.mem_cons_of_mem _ hm))]
    rfl

/-- addEntry with a key already present adds the value into that key's entry
and leaves every other entry alone. -/
theorem addEntry_of_mem (L : List String) (f : String → ℚ) (k : String) (v : ℚ)
    (hnd : L.Nodup) (h : k ∈ L) :
    addEntry (L.map fun k' => (k', f k')) k v
      = L.map fun k' => (k', f k' + if k = k' then v else 0) := by
  induction L with
  | nil => cases h
  | cons a L ih =>
    rw [List.map_cons, List.map_cons, addEntry]
    rcases List.mem_cons.mp h with rfl | hmem
    · rw [if_pos rfl, if_pos rfl]
      have hnot : k ∉ L := (List.nodup_cons.mp hnd).1
      congr 1
      refine List.map_congr_left fun k' hk' => ?_
      have hne : k ≠ k' := fun he => hnot (he.symm ▸ hk')
      simp [hne]
    · have ha : ¬ (a = k) := fun he => (List.nodup_cons.mp hnd).1 (he.symm ▸ hmem)
      rw [if_neg ha, ih (List.nodup_cons.mp hnd).2 hmem,
        if_neg (fun he => ha he.symm), add_zero]

/-- One grouping-loop step takes the canonical table of a prefix to the
canonical table of the prefix extended by the processed record. -/
theorem groupCanon_step (P : List Record) (r : Record) :
    addEntry (groupCanon P) (skuOf r) (revOf r) = groupCanon (P ++ [r]) := by
  rw [groupCanon, groupCanon, List.map_append, List.map_singleton, firstKeys_append]
  by_cases hk : skuOf r ∈ firstKeys (P.map skuOf)
  · rw [if_pos hk, addEntry_of_mem _ _ _ _ (firstKeys_nodup _) hk]
    refine List.map_congr_left fun k' hk' => ?_
    rw [sumFor_append]
  · rw [if_neg hk, addEntry_of_not_mem _ _ _ _ hk, List.map_append,
      List.map_singleton]
    congr 1
    · refine List.map_congr_left fun k' hk' => ?_
      rw [sumFor_append,
        if_neg (fun he : skuOf r = k' => hk (he.symm ▸ hk')), add_zero]
    · rw [sumFor_append, if_pos rfl,
        sumFor_eq_zero P _ (fun hm => hk ((mem_firstKeys _ _).mpr hm)), zero_add]

/-- The grouping fold started from the canonical table of a prefix computes
the canonical table of the prefix followed by the remaining input. -/
theorem group_sum_foldl_canon : ∀ (R P : List Record),
    R.foldl (fun acc r => addEntry acc (skuOf r) (revOf r)) (groupCanon P)
      = groupCanon (P ++ R) := by
  intro R
  induction R with
  | nil => intro P; rw [List.foldl_nil, List.append_nil]
  | cons r R ih =>
    intro P
    rw [List.foldl_cons, groupCanon_step, ih, ← List.append_cons]

/-- C6: group_sum lists its groups in the insertion order of the first
encounter of each group key in the input (not sorted by key), pairing each
key with the sum of its values; and as a pure function of an immutable input,
two calls on the same input yield identical output. -/
theorem group_sum_insertion_order :
    ∀ records : List Record,
      group_sum records = groupCanon records ∧
      (group_sum records).map Prod.fst = firstKeys (records.map skuOf) ∧
      group_sum records = group_sum records := by
  intro records
  have h1 : group_sum records = groupCanon records := by
    have h := group_sum_foldl_canon records []
    rw [List.nil_append] at h
    exact h
  refine ⟨h1, ?_, rfl⟩
  rw [h1, groupCanon, List.map_map]
  simp [Function.comp_def]

/-- C7 counterexample: the dashboard render mutates the process-wide record
set.  On a one-record dataset with positive revenue, the record is in the
top-ten and the loop of src/app.py lines 98-99 writes the Revenue (INR) key
into the shared dict, so the dataset after the render differs from the
dataset before it. -/
theorem dashboard_mutates_dataset :
    dashboardEffect [noIdRecord] ≠ [noIdRecord] := by
  have hrev : (0 : ℚ) < revOf noIdRecord := by
    norm_num [revOf, noIdRecord]
  have hEnum : ([noIdRecord] : List Record).enum = [(0, noIdRecord)] := rfl
  have heff : dashboardEffect [noIdRecord] = [withDisplay noIdRecord] := by
    simp only [dashboardEffect, hEnum]
    simp [List.filter_cons, decide_eq_true hrev, List.mergeSort_singleton]
  rw [heff]
  intro h
  have h1 : withDisplay noIdRecord = noIdRecord := by injection h
  have h2 := congrArg Record.displayRevenue h1
  simp [withDisplay, noIdRecord] at h2

/-- Every record keeps all its original fields across a dashboard render; only
the display key can change. -/
theorem map_clearDisplay_ite (idx : List ℕ) (records : List Record) :
    ((records.enum.map fun p => if p.1 ∈ idx then withDisplay p.2 else p.2).map
      clearDisplay) = records.map clearDisplay := by
  rw [List.map_map]
  have h1 : (clearDisplay ∘ fun p : ℕ × Record =>
      if p.1 ∈ idx then withDisplay p.2 else p.2)
      = fun p : ℕ × Record => clearDisplay p.2 := by
    funext p
    by_cases hp : p.1 ∈ idx <;> simp [hp, clearDisplay, withDisplay]
  rw [h1,
    show (fun p : ℕ × Record => clearDisplay p.2) = clearDisplay ∘ Prod.snd from rfl,
    ← List.map_map, List.enum_map_snd]

/-- C7 amended: the metrics handler only reads the dataset, but a dashboard
render does mutate it — yet only by writing the Revenue (INR) display key
into the top-ten records: the record count is unchanged and, with the display
key disregarded, every record is byte-identical before and after. -/
theorem dashboard_frame_amended :
    ∀ records : List Record,
      (dashboardEffect records).length = records.length ∧
      (dashboardEffect records).map clearDisplay = records.map clearDisplay := by
  intro records
  simp only [dashboardEffect]
  exact ⟨by simp, map_clearDisplay_ite _ records⟩

end TalentPulse
